import Mathlib

/-!
Verification of the ChaseOS terminal / kernel-worker core
(`apps/web/src/kernel/terminal.ts` and `apps/web/src/kernel/kernel.worker.ts`).

The TypeScript source is shallowly embedded: pure functions become Lean
functions on `String` / `List Char`; the async kernel client consumed by the
terminal handlers is modelled as an explicit oracle (a function returning
`Option` / `Except`, where a `none` / `.error` result models a rejected
promise caught by the handler's `try`/`catch`); the worker's message handler
becomes a function from the inbound message and oracles to the list of
observable events it performs, in order.
-/

namespace ChaseOS

/-- Result record returned by every terminal command handler
(`TerminalResult` in terminal.ts). -/
structure TerminalResult where
  stdout : String
  stderr : String
  code : Nat
  deriving DecidableEq, Repr

/-- `ok(stdout)` helper from terminal.ts: success result. -/
def ok (stdout : String) : TerminalResult :=
  { stdout := stdout, stderr := "", code := 0 }

/-- `fail(stderr, code = 1)` helper from terminal.ts: failure result. -/
def fail (stderr : String) (code : Nat := 1) : TerminalResult :=
  { stdout := "", stderr := stderr, code := code }

/-- The character class of JavaScript's `/\s/` (used by the tokenizer) and of
`String.prototype.trim`: ASCII whitespace, NEL-free Unicode space separators,
line/paragraph separators, NBSP variants and the BOM. -/
def isJsSpace (c : Char) : Bool :=
  let n := c.toNat
  (0x9 ≤ n && n ≤ 0xd) || n = 0x20 || n = 0xa0 || n = 0x1680 ||
    (0x2000 ≤ n && n ≤ 0x200a) || n = 0x2028 || n = 0x2029 || n = 0x202f ||
    n = 0x205f || n = 0x3000 || n = 0xfeff

/-- JavaScript `String.prototype.trim`, used by `Terminal.exec`. -/
def jsTrim (s : String) : String :=
  String.mk (((s.data.dropWhile isJsSpace).reverse.dropWhile isJsSpace).reverse)

/-- The tokenizer's scanning mode (`'none' | 'single' | 'double'` in
`tokenize`). -/
inductive TMode where
  | none
  | single
  | double
  deriving DecidableEq, Repr

/-- The `while` loop of `tokenize` in terminal.ts, recursing over the
remaining characters.  `cur` is the token being accumulated and `out` the
tokens emitted so far.  In double-quote mode a backslash consumes the next
character as well (`i += 2` in the source); `input[i+1] ?? ''` at the end of
input contributes nothing. -/
def tokenizeGo : TMode → List Char → String → List String → List String
  | _, [], cur, out => if cur ≠ "" then out ++ [cur] else out
  | TMode.none, ch :: rest, cur, out =>
    if isJsSpace ch then
      if cur ≠ "" then tokenizeGo TMode.none rest "" (out ++ [cur])
      else tokenizeGo TMode.none rest cur out
    else if ch = '\'' then tokenizeGo TMode.single rest cur out
    else if ch = '"' then tokenizeGo TMode.double rest cur out
    else tokenizeGo TMode.none rest (cur.push ch) out
  | TMode.single, ch :: rest, cur, out =>
    if ch = '\'' then tokenizeGo TMode.none rest cur out
    else tokenizeGo TMode.single rest (cur.push ch) out
  | TMode.double, ch :: rest, cur, out =>
    if ch = '"' then tokenizeGo TMode.none rest cur out
    else if ch = '\\' then
      match rest with
      | [] => tokenizeGo TMode.double [] cur out
      | nx :: rest2 =>
        let c2 := if nx = 'n' then '\n' else if nx = 't' then '\t' else nx
        tokenizeGo TMode.double rest2 (cur.push c2) out
    else tokenizeGo TMode.double rest (cur.push ch) out

/-- `tokenize` from terminal.ts: split an input line into tokens, honouring
single quotes (verbatim), double quotes (with two-character escapes) and
whitespace separation. -/
def tokenize (input : String) : List String :=
  tokenizeGo TMode.none input.data "" []

/-- States of the specification-level tokenizer automaton: the three modes of
the spec plus a state recording that a backslash was just read inside double
quotes (the spec's "two-character escape, consuming both characters"). -/
inductive SMode where
  | unq
  | sq
  | dq
  | dqEsc
  deriving DecidableEq, Repr

/-- One character step of the tokenizer as described by the specification
text: three scanning modes, whitespace splits in unquoted mode, single quotes
copy verbatim, double quotes decode the two-character escapes
`\n`/`\t`/`\"`/`\\` and pass any other escaped character through literally. -/
def stepSpec : SMode × String × List String → Char → SMode × String × List String
  | (SMode.unq, cur, out), c =>
    if isJsSpace c then
      if cur ≠ "" then (SMode.unq, "", out ++ [cur]) else (SMode.unq, cur, out)
    else if c = '\'' then (SMode.sq, cur, out)
    else if c = '"' then (SMode.dq, cur, out)
    else (SMode.unq, cur.push c, out)
  | (SMode.sq, cur, out), c =>
    if c = '\'' then (SMode.unq, cur, out) else (SMode.sq, cur.push c, out)
  | (SMode.dq, cur, out), c =>
    if c = '"' then (SMode.unq, cur, out)
    else if c = '\\' then (SMode.dqEsc, cur, out)
    else (SMode.dq, cur.push c, out)
  | (SMode.dqEsc, cur, out), c =>
    (SMode.dq, cur.push (if c = 'n' then '\n' else if c = 't' then '\t' else c), out)

/-- Tokenizer written from the specification's words: fold the step automaton
over the input and emit any trailing accumulated token (an unterminated quote
or trailing escape is absorbed, never an error). -/
def tokenizeSpec (input : String) : List String :=
  let st := input.data.foldl stepSpec (SMode.unq, "", [])
  if st.2.1 ≠ "" then st.2.2 ++ [st.2.1] else st.2.2

/-- `resolvePath(cwd, p)` from terminal.ts: `cwd.replace(/\/+$/, '')` strips
the maximal run of trailing slashes. -/
def stripTrailingSlashes (s : String) : String :=
  String.mk ((s.data.reverse.dropWhile (fun c => c = '/')).reverse)

/-- JavaScript `p.startsWith('/')`. -/
def startsWithSlash (p : String) : Bool :=
  match p.data with
  | c :: _ => c = '/'
  | [] => false

/-- `resolvePath` from terminal.ts: empty or `.` resolves to `cwd`, an
absolute path is used as-is, anything else is appended to `cwd`. -/
def resolvePath (cwd p : String) : String :=
  if p = "" ∨ p = "." then cwd
  else if startsWithSlash p then p
  else stripTrailingSlashes cwd ++ "/" ++ p

/-- JavaScript `String.prototype.split` with a single-character separator
(`path.split('/')` in `normalizePath`): every separator occurrence cuts, and
leading/trailing/adjacent separators yield empty fields. -/
def jsSplitGo (sep : Char) : List Char → List Char → List String
  | [], acc => [String.mk acc.reverse]
  | c :: cs, acc =>
    if c = sep then String.mk acc.reverse :: jsSplitGo sep cs []
    else jsSplitGo sep cs (c :: acc)

/-- JavaScript `s.split(sep)` for a one-character separator. -/
def jsSplit (sep : Char) (s : String) : List String :=
  jsSplitGo sep s.data []

/-- `normalizePath` from terminal.ts: split on `/`, drop empty and `.`
segments, pop one segment per `..` (`Array.prototype.pop` on an empty stack
is a no-op), and rejoin with a leading `/`. -/
def normalizePath (path : String) : String :=
  let parts := (jsSplit '/' path).filter (fun x => x.length > 0)
  let stack := parts.foldl
    (fun st part =>
      if part = "." then st
      else if part = ".." then st.dropLast
      else st ++ [part]) ([] : List String)
  "/" ++ String.intercalate "/" stack

/-- The `Stat` record returned by the storage capability's `fs_stat`
(`{ is_dir, is_file, size }` in kernel.worker.ts). -/
structure StatR where
  is_dir : Bool
  is_file : Bool
  size : Nat
  deriving DecidableEq, Repr

/-- The `cd` handler from terminal.ts, with the kernel's `fs_stat` modelled
as an oracle `statFn` (`none` models a rejected promise caught by the
handler's `try`/`catch`).  Returns the command result together with the new
`cwd` (the handler mutates `this.cwd` only on success). -/
def cdHandler (statFn : String → Option StatR) (cwd : String) (args : List String) :
    TerminalResult × String :=
  let target := args.headD "/"
  let newPath := normalizePath (resolvePath cwd target)
  match statFn newPath with
  | some st =>
    if !st.is_dir then (fail ("not a directory: " ++ newPath), cwd)
    else (ok "", newPath)
  | none => (fail ("directory not found: " ++ newPath), cwd)

/-- JavaScript `Array.prototype.indexOf`: the index of the first occurrence,
or `-1` when absent. -/
def jsIndexOf (l : List String) (x : String) : Int :=
  match l.indexOf? x with
  | some i => (i : Int)
  | none => -1

/-- JavaScript `arr.slice(0, e)`: a negative end counts from the end of the
array (clamped at zero). -/
def jsSliceTo (l : List String) (e : Int) : List String :=
  l.take (if e < 0 then ((l.length : Int) + e).toNat else e.toNat)

/-- JavaScript `arr[i]` for a possibly out-of-range or negative index,
yielding `""` for `undefined` (the `echo` handler only reaches in-range
indices). -/
def jsGet (l : List String) (i : Int) : String :=
  if i < 0 then "" else l.getD i.toNat ""

/-- The `echo` handler from terminal.ts, split into its decision: `none`
means the usage failure (no write attempted), `some (path, text)` means the
handler attempts `fs_write_file(path, text)`.  The `redirectIndex === -1`
guard in the source is commented out, so only `>`-as-last-token (which
includes an empty argument list) is rejected. -/
def echoAction (cwd : String) (args : List String) : Option (String × String) :=
  let redirectIndex := jsIndexOf args ">"
  if redirectIndex = (args.length : Int) - 1 then none
  else
    let text := String.intercalate " " (jsSliceTo args redirectIndex)
    let file := jsGet args (redirectIndex + 1)
    let path := normalizePath (resolvePath cwd file)
    some (path, text)

/-- The `echo` handler's full result, with `fs_write_file` modelled as an
oracle from path and text to success or a caught error message. -/
def echoHandler (writeFile : String → String → Except String Unit)
    (cwd : String) (args : List String) : TerminalResult :=
  match echoAction cwd args with
  | none => fail "usage: echo <text> > <file>"
  | some (path, text) =>
    match writeFile path text with
    | Except.ok _ => ok ""
    | Except.error m => fail m

/-- `Terminal.exec` from terminal.ts, modelling the handler table as an
oracle from command name to an optional handler (a handler returns the
result it produces; a handler that throws is equivalent, for this model, to
one returning the `fail` the surrounding `catch` builds).  Returns the
result together with the updated history list. -/
def execT (handlers : String → Option (List String → TerminalResult))
    (history : List String) (line : String) : TerminalResult × List String :=
  let trimmed := jsTrim line
  if trimmed = "" then (ok "", history)
  else
    let history2 := history ++ [trimmed]
    match tokenize trimmed with
    | [] => (ok "", history2)
    | cmd :: args =>
      match handlers cmd with
      | none => (fail ("command not found: " ++ cmd), history2)
      | some h => (h args, history2)

/-- One filesystem entry as the `tree` renderer observes it through the
kernel oracle: `statFail` models a name whose `fs_stat` rejects, `file` a
stat with `is_dir = false`, and `dir sub` a directory whose own
`fs_readdir` yields `sub` (`none` models a rejected `fs_readdir`).  `fs_stat`
is deterministic, so the two stats the source performs per entry (one to
partition, one to render) observe the same entry. -/
inductive Entry where
  | statFail
  | file
  | dir (sub : Option (List (String × Entry)))

/-- Whether the partition loop of `buildTree` classifies the entry into
`dirEntries` (stat succeeded with `is_dir`); `statFail` lands in
`fileEntries` via the `catch`. -/
def isDirEntry : Entry → Bool
  | Entry.dir _ => true
  | _ => false

/-- Lexicographic strict comparison of character sequences by code point,
the order JavaScript's default `Array.prototype.sort` comparator induces on
strings (codepoint order coincides with UTF-16 code-unit order on the
basic multilingual plane). -/
def charListLt : List Char → List Char → Bool
  | [], [] => false
  | [], _ :: _ => true
  | _ :: _, [] => false
  | a :: as, b :: bs =>
    if a.toNat < b.toNat then true
    else if b.toNat < a.toNat then false
    else charListLt as bs

/-- JavaScript string comparison `a <= b` as used by the default
`Array.prototype.sort` comparator. -/
def strLe (a b : String) : Bool :=
  a == b || charListLt a.data b.data

/-- Insertion into a sorted list, implementing the lexicographic
`Array.prototype.sort()` of `buildTree`. -/
def insertByName (x : String × Entry) : List (String × Entry) → List (String × Entry)
  | [] => [x]
  | y :: ys => if strLe x.1 y.1 then x :: y :: ys else y :: insertByName x ys

/-- Lexicographic sort by entry name (`dirEntries.sort()` /
`fileEntries.sort()` in `buildTree`). -/
def sortByName (l : List (String × Entry)) : List (String × Entry) :=
  l.foldr insertByName []

/-- The child path `${path === '/' ? '' : path}/${entry}` from `buildTree`. -/
def childPath (path name : String) : String :=
  (if path = "/" then "" else path) ++ "/" ++ name

/-- `Terminal.buildTree` from terminal.ts: the root call pushes the resolved
path itself as the first line; a directory's children are partitioned into
directories and files (stat-failed names land with the files), each group is
sorted lexicographically, directories first; each entry gets a connector
(`└── ` for the last at its level, `├── ` otherwise); a subdirectory is
recursively rendered with the prefix extended by `│   ` (more siblings
follow) or four spaces (last child), its rendered block re-split on newlines
dropping empty lines, as in the source; a failed `fs_readdir`
(`listing = none`) silently yields no children at that level.  `fuel` bounds
the recursion depth so the model is structurally recursive; the source
recurses on a finite tree, and every claim is evaluated at fuel at least the
modelled tree's depth, where the fuel-exhausted case is never reached. -/
def buildTree : Nat → String → String → Bool → Option (List (String × Entry)) → String
  | 0, path, _, isRoot, _ => String.intercalate "\n" (if isRoot then [path] else [])
  | fuel + 1, path, pfx, isRoot, listing =>
    let rootLines := if isRoot then [path] else []
    let childLines :=
      match listing with
      | none => []
      | some entries =>
        let dirEntries := entries.filter (fun pe => isDirEntry pe.2)
        let fileEntries := entries.filter (fun pe => !isDirEntry pe.2)
        let sorted := sortByName dirEntries ++ sortByName fileEntries
        (sorted.enum.map (fun ie =>
          let name := ie.2.1
          let isLast := ie.1 = sorted.length - 1
          let connector := if isLast then "└── " else "├── "
          match ie.2.2 with
          | Entry.dir sub =>
            let nextPrefix := pfx ++ (if isLast then "    " else "│   ")
            (pfx ++ connector ++ name ++ "/") ::
              (jsSplit '\n'
                  (buildTree fuel (childPath path name) nextPrefix false sub)).filter
                (fun l => l.length > 0)
          | _ => [pfx ++ connector ++ name])).flatten
    String.intercalate "\n" (rootLines ++ childLines)

/-! ### Kernel worker (`kernel.worker.ts`) -/

/-- A value carried in the `result` field of a success response.  `undef`
models JavaScript `undefined`: the worker's `result` variable is left unset
by every mutating case of the `switch`, so the success response's `result`
field is present but `undefined` there. -/
inductive RValue where
  | undef
  | str (s : String)
  | strList (l : List String)
  | bytes (b : List Nat)
  | statv (st : StatR)
  deriving DecidableEq, Repr

/-- A posted response (`KernelResponse`).  `succ id result` is the object
`{ id, ok: true, result }` (the `result` field present, no `error` field);
`err id message` is `{ id, ok: false, error: { message, stack } }` (the
`error` field present, no `result` field). -/
inductive KResponse where
  | succ (id : String) (result : RValue)
  | err (id : String) (message : String)
  deriving DecidableEq, Repr

/-- The `id` field of a response. -/
def respId : KResponse → String
  | KResponse.succ i _ => i
  | KResponse.err i _ => i

/-- The `ok` field of a response. -/
def respOk : KResponse → Bool
  | KResponse.succ _ _ => true
  | KResponse.err _ _ => false

/-- Whether the response object carries a `result` field. -/
def respHasResult : KResponse → Bool
  | KResponse.succ _ _ => true
  | KResponse.err _ _ => false

/-- Whether the response object carries an `error` field. -/
def respHasError : KResponse → Bool
  | KResponse.succ _ _ => false
  | KResponse.err _ _ => true

/-- An inbound worker message, seen untyped as the handler's guard sees it:
`id` and `rtype` (the source's `type`) are strings where `""` models a
missing or otherwise falsy field; the operation-specific fields default when
absent. -/
structure RawReq where
  id : String
  rtype : String
  name : String := ""
  path : String := ""
  data : List Nat := []
  src : String := ""
  dst : String := ""
  deriving DecidableEq, Repr

/-- The WASM kernel API as the worker consumes it, each operation modelled
as a function returning `Except` (an `.error` models a thrown exception
caught by the handler's `try`). -/
structure KernelAPIModel where
  hello : String → Except String String
  fs_mkdir : String → Except String Unit
  fs_readdir : String → Except String (List String)
  fs_write_file : String → List Nat → Except String Unit
  fs_read_file : String → Except String (List Nat)
  fs_stat : String → Except String StatR
  fs_rm : String → Except String Unit
  fs_rmdir : String → Except String Unit
  fs_mv : String → String → Except String Unit
  fs_cp : String → String → Except String Unit

/-- The `switch (req.type)` of the worker's message handler: the operation's
result value together with the `needsPersist` flag the case sets.  The
`default` case throws `Unknown request type: …` (the source interpolates the
stringified request; the exact text is irrelevant to the claims). -/
def runOp (a : KernelAPIModel) (r : RawReq) : Except String (RValue × Bool) :=
  if r.rtype = "hello" then (a.hello r.name).map (fun s => (RValue.str s, false))
  else if r.rtype = "fs_mkdir" then (a.fs_mkdir r.path).map (fun _ => (RValue.undef, true))
  else if r.rtype = "fs_readdir" then
    (a.fs_readdir r.path).map (fun l => (RValue.strList l, false))
  else if r.rtype = "fs_write_file" then
    (a.fs_write_file r.path r.data).map (fun _ => (RValue.undef, true))
  else if r.rtype = "fs_read_file" then
    (a.fs_read_file r.path).map (fun b => (RValue.bytes b, false))
  else if r.rtype = "fs_stat" then (a.fs_stat r.path).map (fun st => (RValue.statv st, false))
  else if r.rtype = "fs_rm" then (a.fs_rm r.path).map (fun _ => (RValue.undef, true))
  else if r.rtype = "fs_rmdir" then (a.fs_rmdir r.path).map (fun _ => (RValue.undef, true))
  else if r.rtype = "fs_mv" then (a.fs_mv r.src r.dst).map (fun _ => (RValue.undef, true))
  else if r.rtype = "fs_cp" then (a.fs_cp r.src r.dst).map (fun _ => (RValue.undef, true))
  else Except.error ("Unknown request type: " ++ r.rtype)

/-- An observable event of one `self.onmessage` invocation, in order:
`opRun` marks the successful completion of the `switch`'s API call,
`storeWrite` the `idbSetBytes(FS_KEY, fs_dump_state())` call inside
`persist()`, and `post` a `self.postMessage` of a response. -/
inductive WEvent where
  | opRun (tag : String)
  | storeWrite
  | post (r : KResponse)
  deriving DecidableEq, Repr

/-- `self.onmessage` from kernel.worker.ts as a trace of events.  `api` is
`none` while the kernel module has not finished initializing (the source's
`api === null`); `idbSet` is the outcome of the durable-store write inside
`persist()` (an `.error` models a rejected promise, caught by the outer
`catch`).  Messages that are null or have a falsy `id` or `type` are dropped
with no event at all. -/
def onmessage (api : Option KernelAPIModel) (idbSet : Except String Unit)
    (msg : Option RawReq) : List WEvent :=
  match msg with
  | none => []
  | some r =>
    if r.id = "" ∨ r.rtype = "" then []
    else
      match api with
      | none => [WEvent.post (KResponse.err r.id "Kernel not initialized")]
      | some a =>
        match runOp a r with
        | Except.error m => [WEvent.post (KResponse.err r.id m)]
        | Except.ok (v, needsPersist) =>
          if needsPersist then
            match idbSet with
            | Except.ok _ =>
              [WEvent.opRun r.rtype, WEvent.storeWrite,
                WEvent.post (KResponse.succ r.id v)]
            | Except.error m =>
              [WEvent.opRun r.rtype, WEvent.storeWrite,
                WEvent.post (KResponse.err r.id m)]
          else [WEvent.opRun r.rtype, WEvent.post (KResponse.succ r.id v)]

/-- The responses posted during one `onmessage` invocation, in order. -/
def postedResponses (tr : List WEvent) : List KResponse :=
  tr.filterMap (fun e =>
    match e with
    | WEvent.post r => some r
    | _ => none)

/-- The request tags the worker's `switch` recognizes. -/
def recognizedTags : List String :=
  ["hello", "fs_mkdir", "fs_readdir", "fs_write_file", "fs_read_file",
    "fs_stat", "fs_rm", "fs_rmdir", "fs_mv", "fs_cp"]

/-- The tags whose `switch` case sets `needsPersist = true`. -/
def mutatingTags : List String :=
  ["fs_mkdir", "fs_write_file", "fs_rm", "fs_rmdir", "fs_mv", "fs_cp"]

/-- The tags whose case leaves `needsPersist = false`. -/
def readOnlyTags : List String :=
  ["hello", "fs_readdir", "fs_read_file", "fs_stat"]

/-- The specification automaton state corresponding to a source tokenizer
mode (the source has no pending-escape state because it consumes the escaped
character in the same loop iteration). -/
def corrMode : TMode → SMode
  | TMode.none => SMode.unq
  | TMode.single => SMode.sq
  | TMode.double => SMode.dq

/-- Final flush of the specification tokenizer: emit the trailing
accumulated token when nonempty. -/
def finishSpec (st : SMode × String × List String) : List String :=
  if st.2.1 ≠ "" then st.2.2 ++ [st.2.1] else st.2.2

/-- A sample directory listing exercising every branch of the tree renderer:
a subdirectory `a` with a nested directory and file, a subdirectory `c`
whose own readdir fails, a plain file `b.txt`, and a name `s` whose stat
fails; given unsorted to exercise the sort. -/
def exampleListing : List (String × Entry) :=
  [("b.txt", Entry.file),
   ("a", Entry.dir (some [("z", Entry.file), ("y", Entry.dir (some []))])),
   ("s", Entry.statFail),
   ("c", Entry.dir none)]

/-- A kernel API oracle whose operations all succeed, for concrete
instantiations. -/
def apiAllOk : KernelAPIModel where
  hello := fun n => Except.ok ("Hello, " ++ n)
  fs_mkdir := fun _ => Except.ok ()
  fs_readdir := fun _ => Except.ok []
  fs_write_file := fun _ _ => Except.ok ()
  fs_read_file := fun _ => Except.ok []
  fs_stat := fun _ => Except.ok ⟨true, false, 0⟩
  fs_rm := fun _ => Except.ok ()
  fs_rmdir := fun _ => Except.ok ()
  fs_mv := fun _ _ => Except.ok ()
  fs_cp := fun _ _ => Except.ok ()

/-- A concrete stat oracle over a tiny filesystem: `/home` is a directory,
`/file.txt` a file, everything else missing. -/
def statOracle : String → Option StatR := fun p =>
  if p = "/home" then some ⟨true, false, 0⟩
  else if p = "/file.txt" then some ⟨false, true, 3⟩
  else none

/-! ### Helper lemmas -/

/-- The source tokenizer loop agrees with the specification automaton: each
loop iteration corresponds to one or two automaton steps (two for an escape
inside double quotes), and both flush the trailing token identically. -/
theorem tokenizeGo_eq_fold (m : TMode) (cs : List Char) (cur : String) (out : List String) :
    tokenizeGo m cs cur out = finishSpec (cs.foldl stepSpec (corrMode m, cur, out)) := by
  induction m, cs, cur, out using tokenizeGo.induct with
  | case1 m cur out => cases m <;> simp [tokenizeGo, finishSpec, corrMode]
  | _ =>
    rw [tokenizeGo.eq_def]
    simp_all [stepSpec, corrMode, finishSpec]

/-- The tokenizer loop only ever emits `cur` under a `cur ≠ ""` guard, so it
preserves the absence of empty tokens. -/
theorem tokenizeGo_ne_empty (m : TMode) (cs : List Char) (cur : String) (out : List String) :
    (∀ t ∈ out, t ≠ "") → ∀ t ∈ tokenizeGo m cs cur out, t ≠ "" := by
  induction m, cs, cur, out using tokenizeGo.induct with
  | case3 ch rest cur out hsp hcur ih =>
    intro h
    rw [tokenizeGo.eq_def]
    simp_all
    apply ih
    intro t ht
    rcases ht with ht | rfl
    · exact h t ht
    · exact hcur
  | _ =>
    intro h
    rw [tokenizeGo.eq_def]
    simp_all
    try (rintro t (ht | rfl)
         · exact h t ht
         · assumption)

/-- Inversion for `Except.map` returning a success. -/
theorem except_map_ok {α β γ : Type} (f : α → β) (x : Except γ α) (b : β)
    (h : x.map f = Except.ok b) : ∃ a, x = Except.ok a ∧ b = f a := by
  cases x <;> simp [Except.map] at h ⊢
  exact h.symm

/-- The `switch` leaves `needsPersist = false` in every read-only case. -/
theorem runOp_readonly (a : KernelAPIModel) (r : RawReq) (h : r.rtype ∈ readOnlyTags)
    (v : RValue) (np : Bool) (hop : runOp a r = Except.ok (v, np)) : np = false := by
  simp [readOnlyTags] at h
  rcases h with h | h | h | h <;> rw [runOp] at hop <;> simp [h] at hop <;>
    (obtain ⟨a', hx, hb⟩ := except_map_ok _ _ _ hop; simp at hb; exact hb.2)

/-- The `switch` sets `needsPersist = true` in every mutating case. -/
theorem runOp_mutating (a : KernelAPIModel) (r : RawReq) (h : r.rtype ∈ mutatingTags)
    (v : RValue) (np : Bool) (hop : runOp a r = Except.ok (v, np)) : np = true := by
  simp [mutatingTags] at h
  rcases h with h | h | h | h | h | h <;> rw [runOp] at hop <;> simp [h] at hop <;>
    (obtain ⟨a', hx, hb⟩ := except_map_ok _ _ _ hop; simp at hb; exact hb.2)

/-- Every message with truthy `id` and `type` fields produces exactly one
posted response, bearing the request's id, whatever the oracles do. -/
theorem onmessage_one_post (api : Option KernelAPIModel) (idbSet : Except String Unit)
    (r : RawReq) (hid : r.id ≠ "") (hty : r.rtype ≠ "") :
    ∃ resp, postedResponses (onmessage api idbSet (some r)) = [resp] ∧ respId resp = r.id := by
  rw [onmessage.eq_def]
  simp only [if_neg (not_or.mpr ⟨hid, hty⟩)]
  rcases api with _ | a
  · exact ⟨_, rfl, rfl⟩
  · rcases hop : runOp a r with m | ⟨v, np⟩ <;> simp only [hop]
    · exact ⟨_, rfl, rfl⟩
    · rcases np <;> rcases idbSet with m' | u <;> exact ⟨_, rfl, rfl⟩

/-! ### Claim theorems -/

/-- C1: the claim states that when `>` is absent from the arguments the
`echo` handler returns a usage failure and writes no file.  The code's
`redirectIndex === -1` guard is commented out, so with `args = ["hi"]`
(no `>`) the handler proceeds: `args.slice(0, -1)` joins to `""` and
`args[0] = "hi"` becomes the target, so the handler writes the empty string
to `/hi` and reports success — contradicting the claim, its own usage
message, and the help text.  The last two conjuncts confirm the cases the
code does handle: `>` as final token (including an empty argument list) is a
usage failure, and a well-formed redirect writes the joined text before the
first `>` to the token after it. -/
theorem echo_missing_redirect_writes_file :
    echoAction "/" ["hi"] = some ("/hi", "") ∧
    echoHandler (fun _ _ => Except.ok ()) "/" ["hi"] = ok "" ∧
    echoAction "/" [] = none ∧
    echoAction "/" ["a", "b", ">"] = none ∧
    echoAction "/home" ["a", "b", ">", "f.txt", "junk"] = some ("/home/f.txt", "a b") := by
  decide

/-- C2: read-only operations (`hello`, `fs_readdir`, `fs_read_file`,
`fs_stat`) never trigger a durable-store write, for any oracle outcome; and
for every mutating operation (`fs_mkdir`, `fs_write_file`, `fs_rm`,
`fs_rmdir`, `fs_mv`, `fs_cp`), whenever a success response is posted the
invocation's trace is exactly the operation, then the store write, then the
success response — the persistence write happens after the mutation and
completes before the success response is posted. -/
theorem worker_persist_policy :
    ∀ (api : Option KernelAPIModel) (idbSet : Except String Unit) (r : RawReq),
    (r.rtype ∈ readOnlyTags → WEvent.storeWrite ∉ onmessage api idbSet (some r)) ∧
    (r.rtype ∈ mutatingTags → ∀ v,
      WEvent.post (KResponse.succ r.id v) ∈ onmessage api idbSet (some r) →
      onmessage api idbSet (some r) =
        [WEvent.opRun r.rtype, WEvent.storeWrite, WEvent.post (KResponse.succ r.id v)]) := by
  intro api idbSet r
  constructor
  · intro h
    by_cases hvalid : r.id = "" ∨ r.rtype = ""
    · rw [onmessage.eq_def]; simp [hvalid]
    · rw [onmessage.eq_def]
      simp only [if_neg hvalid]
      rcases api with _ | a
      · simp
      · rcases hop : runOp a r with m | ⟨v, np⟩ <;> simp only [hop]
        · simp
        · have := runOp_readonly a r h v np hop
          subst this
          simp
  · intro h v hmem
    by_cases hvalid : r.id = "" ∨ r.rtype = ""
    · rw [onmessage.eq_def] at hmem ⊢; simp [hvalid] at hmem
    · rw [onmessage.eq_def] at hmem ⊢
      simp only [if_neg hvalid] at hmem ⊢
      rcases api with _ | a
      · simp at hmem
      · rcases hop : runOp a r with m | ⟨v', np⟩ <;> simp only [hop] at hmem ⊢
        · simp at hmem
        · have := runOp_mutating a r h v' np hop
          subst this
          rcases idbSet with m' | u
          · simp at hmem
          · simp at hmem
            simp [hmem]

/-- Witness for C2: a concrete `fs_stat` request writes nothing to the
store, and a concrete successful `fs_mkdir` request's trace is exactly
operation, store write, success response. -/
theorem worker_persist_policy_witness :
    WEvent.storeWrite ∉ onmessage (some apiAllOk) (Except.ok ())
      (some { id := "r1", rtype := "fs_stat", path := "/home" }) ∧
    onmessage (some apiAllOk) (Except.ok ())
        (some { id := "r2", rtype := "fs_mkdir", path := "/docs" }) =
      [WEvent.opRun "fs_mkdir", WEvent.storeWrite,
        WEvent.post (KResponse.succ "r2" RValue.undef)] := by
  constructor
  · exact (worker_persist_policy (some apiAllOk) (Except.ok ())
      { id := "r1", rtype := "fs_stat", path := "/home" }).1 (by decide)
  · exact (worker_persist_policy (some apiAllOk) (Except.ok ())
      { id := "r2", rtype := "fs_mkdir", path := "/docs" }).2 (by decide)
      RValue.undef (by decide)

/-- C3: every message with a (truthy) id and a recognized type yields
exactly one posted response; that response's id equals the request's id, and
it is shaped so that `ok = true` implies the `result` field is present and
no `error` field is, while `ok = false` implies the `error` field is present
and no `result` field is. -/
theorem worker_response_correlation :
    ∀ (api : Option KernelAPIModel) (idbSet : Except String Unit) (r : RawReq),
    r.id ≠ "" → r.rtype ∈ recognizedTags →
    (postedResponses (onmessage api idbSet (some r))).length = 1 ∧
    ∀ resp ∈ postedResponses (onmessage api idbSet (some r)),
      respId resp = r.id ∧
      (respOk resp = true → respHasResult resp = true ∧ respHasError resp = false) ∧
      (respOk resp = false → respHasError resp = true ∧ respHasResult resp = false) := by
  intro api idbSet r hid hrec
  have hty : r.rtype ≠ "" := by
    intro h
    rw [h] at hrec
    simp [recognizedTags] at hrec
  obtain ⟨resp, hresp, hrid⟩ := onmessage_one_post api idbSet r hid hty
  refine ⟨by rw [hresp]; rfl, ?_⟩
  intro resp' hmem
  rw [hresp] at hmem
  simp at hmem
  subst hmem
  refine ⟨hrid, ?_, ?_⟩ <;>
    cases resp' <;> simp [respOk, respHasResult, respHasError]

/-- Witness for C3: a concrete `fs_readdir` request gets exactly one
response, carrying its id. -/
theorem worker_response_correlation_witness :
    (postedResponses (onmessage (some apiAllOk) (Except.ok ())
      (some { id := "q7", rtype := "fs_readdir", path := "/" }))).length = 1 := by
  exact (worker_response_correlation (some apiAllOk) (Except.ok ())
    { id := "q7", rtype := "fs_readdir", path := "/" } (by decide) (by decide)).1

/-- C4: the tokenizer scans left to right in three modes and agrees, on
every input, with the automaton written from the specification's words
(whitespace splits in unquoted mode; single quotes copy verbatim; double
quotes decode the escapes `\n`, `\t`, `\"`, `\\` and pass any other escaped
character through literally, consuming both characters; unterminated quotes
absorb to the end of input; a trailing token is flushed).  The remaining
conjuncts check the claim's examples and each escape concretely, including
verbatim single-quote contents and unterminated-quote absorption. -/
theorem tokenize_three_mode_spec :
    (∀ input, tokenize input = tokenizeSpec input) ∧
    tokenize "a \"b c\" d" = ["a", "b c", "d"] ∧
    tokenize "\"abc" = ["abc"] ∧
    tokenize "\"a\\nb\"" = ["a\nb"] ∧
    tokenize "\"a\\tb\"" = ["a\tb"] ∧
    tokenize "\"a\\\"b\"" = ["a\"b"] ∧
    tokenize "\"a\\\\b\"" = ["a\\b"] ∧
    tokenize "\"a\\qb\"" = ["aqb"] ∧
    tokenize "echo 'x\\ty' z" = ["echo", "x\\ty", "z"] ∧
    tokenize "'abc" = ["abc"] := by
  refine ⟨?_, by decide, by decide, by decide, by decide, by decide, by decide,
    by decide, by decide, by decide⟩
  intro input
  rw [tokenize, tokenizeSpec, tokenizeGo_eq_fold]
  rfl

/-- C5: path resolution returns `cwd` for an empty or `.` argument, returns
an absolute argument as-is, and otherwise appends the argument to `cwd`
stripped of trailing slashes; normalization always yields a path with a
leading `/`; and the three examples hold: `..` pops one segment, popping
past the root is a no-op so the result never escapes root, and an absolute
path overrides `cwd`. -/
theorem path_resolution_spec :
    (∀ cwd, resolvePath cwd "" = cwd ∧ resolvePath cwd "." = cwd) ∧
    (∀ cwd p, startsWithSlash p = true → resolvePath cwd p = p) ∧
    (∀ cwd p, startsWithSlash p = false → p ≠ "" → p ≠ "." →
      resolvePath cwd p = stripTrailingSlashes cwd ++ "/" ++ p) ∧
    (∀ path, startsWithSlash (normalizePath path) = true) ∧
    normalizePath (resolvePath "/home/u" "..") = "/home" ∧
    normalizePath (resolvePath "/" "../../x") = "/x" ∧
    normalizePath (resolvePath "/a" "/b") = "/b" := by
  refine ⟨fun cwd => ⟨rfl, rfl⟩, ?_, ?_, ?_, by decide, by decide, by decide⟩
  · intro cwd p h
    rw [resolvePath, if_neg, if_pos h]
    rintro (rfl | rfl) <;> simp [startsWithSlash] at h
  · intro cwd p h h1 h2
    rw [resolvePath, if_neg, if_neg]
    · simp [h]
    · rintro (rfl | rfl) <;> simp_all
  · intro path
    rw [normalizePath]
    rcases h : (jsSplit '/' path).filter (fun x => x.length > 0) |>.foldl
        (fun st part =>
          if part = "." then st else if part = ".." then st.dropLast else st ++ [part])
        ([] : List String) with _ | ⟨a, as⟩ <;>
      simp [startsWithSlash, String.data_append]

/-- Witness for C5: the absolute-path clause at `("/a", "/b")` and the
relative-append clause at `("/u/", "x")`, with trailing slash stripped. -/
theorem path_resolution_spec_witness :
    resolvePath "/a" "/b" = "/b" ∧ resolvePath "/u/" "x" = "/u/x" := by
  refine ⟨path_resolution_spec.2.1 "/a" "/b" (by decide), ?_⟩
  exact (path_resolution_spec.2.2.1 "/u/" "x" (by decide) (by decide) (by decide)).trans
    (by decide)

/-- C6: `cd` with no argument behaves as `cd /`; if the stat of the
resolved, normalized target reports a non-directory, `cd` fails with
`not a directory: <target>`; if the stat errors, it fails with
`directory not found: <target>`; on success it returns empty stdout with
code 0 and sets `cwd` to the target; and every failure leaves `cwd`
unchanged. -/
theorem cd_contract :
    ∀ (statFn : String → Option StatR) (cwd : String) (args : List String),
    (args = [] → cdHandler statFn cwd args = cdHandler statFn cwd ["/"]) ∧
    (∀ st, statFn (normalizePath (resolvePath cwd (args.headD "/"))) = some st →
      st.is_dir = false →
      cdHandler statFn cwd args =
        (fail ("not a directory: " ++ normalizePath (resolvePath cwd (args.headD "/"))),
          cwd)) ∧
    (statFn (normalizePath (resolvePath cwd (args.headD "/"))) = none →
      cdHandler statFn cwd args =
        (fail ("directory not found: " ++ normalizePath (resolvePath cwd (args.headD "/"))),
          cwd)) ∧
    (∀ st, statFn (normalizePath (resolvePath cwd (args.headD "/"))) = some st →
      st.is_dir = true →
      cdHandler statFn cwd args = (ok "", normalizePath (resolvePath cwd (args.headD "/")))) ∧
    ((cdHandler statFn cwd args).1.code ≠ 0 → (cdHandler statFn cwd args).2 = cwd) := by
  intro statFn cwd args
  refine ⟨?_, ?_, ?_, ?_, ?_⟩ <;>
    simp only [cdHandler] <;>
    rcases h : statFn (normalizePath (resolvePath cwd (args.headD "/"))) with _ | st <;>
    intros <;> simp_all <;>
    try (rcases hd : st.is_dir <;> simp_all [ok, fail])

/-- Witness for C6: over `statOracle`, `cd home` from `/` succeeds and moves
`cwd`, `cd nope` fails with `directory not found` leaving `cwd`, and
`cd file.txt` fails with `not a directory` leaving `cwd`. -/
theorem cd_contract_witness :
    cdHandler statOracle "/" ["home"] = (ok "", "/home") ∧
    cdHandler statOracle "/" ["nope"] = (fail "directory not found: /nope", "/") ∧
    cdHandler statOracle "/" ["file.txt"] = (fail "not a directory: /file.txt", "/") := by
  refine ⟨?_, ?_, ?_⟩
  · exact ((cd_contract statOracle "/" ["home"]).2.2.2.1 ⟨true, false, 0⟩ (by decide)
      (by decide)).trans (by decide)
  · exact ((cd_contract statOracle "/" ["nope"]).2.2.1 (by decide)).trans (by decide)
  · exact ((cd_contract statOracle "/" ["file.txt"]).2.1 ⟨false, true, 3⟩ (by decide)
      (by decide)).trans (by decide)

/-- C7: the tree renderer puts the resolved root path on the first line for
every listing; a failed readdir at the root yields just the root line; a
sole subdirectory renders with the `└── ` connector and a trailing `/`, and
when its own readdir fails it contributes no child lines; a sole stat-failed
entry is still listed, as a leaf; and a worked example (unsorted input with
nested directories, a stat-failed entry and an inner readdir failure) checks
the dirs-first lexicographic ordering, the `├── `/`└── ` connectors and the
`│   ` / four-space prefix extension. -/
theorem tree_render_contract :
    (∀ fuel path pfx l,
      ∃ rest, buildTree fuel path pfx true l = String.intercalate "\n" (path :: rest)) ∧
    (∀ fuel path pfx, buildTree fuel path pfx true none = path) ∧
    (∀ fuel path pfx name,
      buildTree (fuel + 1) path pfx true (some [(name, Entry.dir none)]) =
        String.intercalate "\n" [path, pfx ++ "└── " ++ name ++ "/"]) ∧
    (∀ fuel path pfx name,
      buildTree (fuel + 1) path pfx true (some [(name, Entry.statFail)]) =
        String.intercalate "\n" [path, pfx ++ "└── " ++ name]) ∧
    buildTree 5 "/p" "" true (some exampleListing) =
      "/p\n├── a/\n│   ├── y/\n│   └── z\n├── c/\n├── b.txt\n└── s" := by
  refine ⟨?_, ?_, ?_, ?_, by decide⟩
  · intro fuel path pfx l
    cases fuel
    · exact ⟨[], rfl⟩
    · exact ⟨_, rfl⟩
  · intro fuel path pfx
    cases fuel <;> rfl
  · intro fuel path pfx name
    cases fuel <;>
      simp [buildTree, isDirEntry, sortByName, insertByName, jsSplit, jsSplitGo, childPath]
  · intro fuel path pfx name
    simp [buildTree, isDirEntry, sortByName, insertByName]

/-- C8: a line that trims to empty makes `exec` return success with empty
stdout and leave history untouched; any other line has exactly its trimmed
form appended to the end of history, whatever the handler table does —
including unknown commands and failing handlers — so history is append-only,
in insertion order, never deduplicated. -/
theorem exec_history_append_only :
    ∀ (handlers : String → Option (List String → TerminalResult))
      (history : List String) (line : String),
    (jsTrim line = "" → execT handlers history line = (ok "", history)) ∧
    (jsTrim line ≠ "" → (execT handlers history line).2 = history ++ [jsTrim line]) := by
  intro handlers history line
  constructor
  · intro h
    simp [execT, h]
  · intro h
    rw [execT, if_neg h]
    rcases htok : tokenize (jsTrim line) with _ | ⟨cmd, args⟩ <;> simp only [htok]
    rcases hh : handlers cmd with _ | hd <;> simp [hh]

/-- Witness for C8: a whitespace-only line leaves history alone; an unknown
command is still appended trimmed. -/
theorem exec_history_append_only_witness :
    execT (fun _ => none) ["ls"] "   " = (ok "", ["ls"]) ∧
    (execT (fun _ => none) [] " nosuch x ").2 = ["nosuch x"] := by
  constructor
  · exact (exec_history_append_only (fun _ => none) ["ls"] "   ").1 (by decide)
  · exact ((exec_history_append_only (fun _ => none) [] " nosuch x ").2 (by decide)).trans
      (by decide)

/-- C9: the tokenizer never emits an empty-string token, so an explicitly
quoted empty string contributes no token at all and the following tokens
shift left, as in `tokenize "echo \"\" > f"` and its single-quote
counterpart. -/
theorem tokenize_no_empty_tokens :
    (∀ input t, t ∈ tokenize input → t ≠ "") ∧
    tokenize "echo \"\" > f" = ["echo", ">", "f"] ∧
    tokenize "echo '' > f" = ["echo", ">", "f"] := by
  refine ⟨?_, by decide, by decide⟩
  intro input
  exact tokenizeGo_ne_empty _ _ _ _ (by simp)

/-- Witness for C9: the no-empty-token clause applied to a concrete token of
a concrete input. -/
theorem tokenize_no_empty_tokens_witness : "echo" ≠ "" :=
  tokenize_no_empty_tokens.1 "echo \"\" > f" "echo" (by decide)

/-- C10: a worker message that is null, or whose `id` or `type` field is
missing or falsy, is dropped with no observable event at all — in
particular, no response is ever posted for it. -/
theorem worker_drops_invalid_messages :
    ∀ (api : Option KernelAPIModel) (idbSet : Except String Unit) (msg : Option RawReq),
    (msg = none ∨ ∃ r, msg = some r ∧ (r.id = "" ∨ r.rtype = "")) →
    onmessage api idbSet msg = [] := by
  rintro api idbSet _ (rfl | ⟨r, rfl, hr⟩)
  · rfl
  · rw [onmessage.eq_def]
    simp [hr]

/-- Witness for C10: a null message and a message with an empty id are both
dropped eventlessly. -/
theorem worker_drops_invalid_messages_witness :
    onmessage (some apiAllOk) (Except.ok ()) none = [] ∧
    onmessage (some apiAllOk) (Except.ok ())
      (some { id := "", rtype := "fs_stat", path := "/" }) = [] := by
  constructor
  · exact worker_drops_invalid_messages (some apiAllOk) (Except.ok ()) none (Or.inl rfl)
  · exact worker_drops_invalid_messages (some apiAllOk) (Except.ok ())
      (some { id := "", rtype := "fs_stat", path := "/" })
      (Or.inr ⟨_, rfl, Or.inl rfl⟩)

end ChaseOS
